import Mathlib

/-!
Verification of the test-result archiving and CI-annotation reporting subsystem
in test/pysys-extensions/myorg/ci.py (classes TestOutcomeSummaryGenerator,
TestOutputArchiveWriter and GitHubActionsCIWriter).

The Python source is shallowly embedded: pure string/arithmetic logic is
translated directly; filesystem facts (file sizes, compressed sizes, the final
on-disk size of a finished zip) are inputs supplied by an environment record;
Python regular expressions are abstracted as boolean predicates on strings
(re search applied to a string); Python built-in hash is an environment
function String to Int. Machine integers are Int (Python ints are unbounded).
-/

/-! ## Python str.replace

Model of the Python expression s.replace(tgt, rep): every non-overlapping
occurrence of tgt is replaced by rep, scanning left to right. Implemented
with fuel (initialised to the length of the character list) so that the
definition is structurally recursive and kernel-reducible; a matched
occurrence consumes at least one character and exactly one unit of fuel, so
fuel never runs out on the reachable inputs (all call sites use a non-empty
tgt). -/
def replaceListAux (tgt rep : List Char) : Nat → List Char → List Char
  | _, [] => []
  | 0, _ => []
  | fuel + 1, c :: rest =>
    if tgt ≠ [] ∧ tgt.isPrefixOf (c :: rest) then
      rep ++ replaceListAux tgt rep fuel (List.drop (tgt.length - 1) rest)
    else
      c :: replaceListAux tgt rep fuel rest

/-- Python s.replace(tgt, rep) on Lean strings. -/
def pyReplace (s tgt rep : String) : String :=
  ⟨replaceListAux tgt.data rep.data s.data.length s.data⟩

/-! ## Outcomes (interface of pysys.constants, imported at ci.py line 30)

PRECEDENT is the fixed precedence-ordered list of outcome kinds, FAILS its
failing subset, LOOKUP the display label of each kind. These come from the
external pysys library (only their interface is relevant: FAILS is a subset
of PRECEDENT and the labels are fixed non-empty strings). -/
inductive Outcome where
  | skipped
  | blocked
  | dumpedcore
  | timedout
  | failed
  | notverified
  | inspect
  | passed
deriving DecidableEq

def PRECEDENT : List Outcome :=
  [.skipped, .blocked, .dumpedcore, .timedout, .failed, .notverified, .inspect, .passed]

def FAILS : List Outcome := [.blocked, .dumpedcore, .timedout, .failed]

def LOOKUP : Outcome → String
  | .skipped => "SKIPPED"
  | .blocked => "BLOCKED"
  | .dumpedcore => "DUMPED CORE"
  | .timedout => "TIMED OUT"
  | .failed => "FAILED"
  | .notverified => "NOT VERIFIED"
  | .inspect => "REQUIRES INSPECTION"
  | .passed => "PASSED"

/-! ## TestOutcomeSummaryGenerator (ci.py lines 65-184) -/

/-- State accumulated by TestOutcomeSummaryGenerator.setup/processResult:
outcomes is the per-kind counter (line 99/103); results is the flattened
ledger of recorded entries (cycle, outcome, id, reason, outputdir) from
line 102. -/
structure SummaryState where
  outcomes : Outcome → Nat
  results : List (Int × Outcome × String × String × String)

/-- Translation of TestOutcomeSummaryGenerator.getSummaryText (lines 106-118).
The body creates an empty local list and a local log helper that would append
formatted lines to it, but never invokes logSummary (or anything else) on
them, so the list is still empty when the joined string is returned. -/
def getSummaryText (_s : SummaryState) : String :=
  let result : List String := []
  String.intercalate "\n" result

/-- The failure-outcome count: sum(self.outcomes[o] for o in FAILS)
(ci.py line 148). -/
def failedNumber (outcomes : Outcome → Nat) : Nat :=
  (FAILS.map outcomes).sum

/-- The executed-test count: sum(self.outcomes.values()) (ci.py line 147). -/
def executedCount (outcomes : Outcome → Nat) : Nat :=
  (PRECEDENT.map outcomes).sum

/-- The string named failed at ci.py line 150: comma-separated
"count label" entries for the failing outcome kinds with a non-zero count,
in precedence order. -/
def failedStr (outcomes : Outcome → Nat) : String :=
  String.intercalate ", "
    ((PRECEDENT.filter (fun o => decide (o ∈ FAILS) && decide (0 < outcomes o))).map
      (fun o => toString (outcomes o) ++ " " ++ LOOKUP o))

/-- The guarded failure-statistics line of logSummary (ci.py line 151): the
percentage 100.0 * failednumber / executed is evaluated only when the string
failed is non-empty. The numerator and divisor are returned unevaluated. -/
def outcomeStatsFailureLine (outcomes : Outcome → Nat) : Option (String × Nat × Nat) :=
  if failedStr outcomes ≠ "" then
    some (failedStr outcomes, failedNumber outcomes, executedCount outcomes)
  else
    none

/-! ## Module-level names of ci.py (lines 25-39)

Name resolution environment for the module: the modules bound by its import
statements (lines 27, 28, 35), the names bound by its from-imports
(lines 30-34), and the module-level definitions. Used to evaluate the
attribute access io.open at line 299. -/
def ciModuleTopLevelNames : List String :=
  ["time", "logging", "sys", "threading", "os",
   "re",
   "zipfile",
   "PrintLogs", "PRECEDENT", "FAILS", "LOOKUP",
   "BaseRecordResultsWriter", "BaseResultsWriter",
   "ColorLogFormatter", "stdoutPrint",
   "PY2",
   "mkdir", "deletedir", "toLongPathSafe", "fromLongPathSafe",
   "log", "stripANSIEscapeCodes",
   "ArtifactPublisher", "TestOutcomeSummaryGenerator",
   "TestOutputArchiveWriter", "GitHubActionsCIWriter", "__all__"]

/-- Translation of the skipped-tests manifest block of
TestOutputArchiveWriter.cleanup (ci.py lines 296-300). When skippedTests is
non-empty the code evaluates io.open(self.destDir+os.sep+'skipped_artifacts.txt',...);
evaluating the name io succeeds only if the module binds it, otherwise Python
raises NameError and the file is not written. On success the written content
is the newline-joined entries (os.path.normpath is the identity on the
already-normalised absolute paths stored in skippedTests). -/
def writeSkippedArtifactsFile (skippedTests : List String) :
    Except String (Option (String × String)) :=
  if skippedTests = [] then
    Except.ok none
  else if "io" ∈ ciModuleTopLevelNames then
    Except.ok (some ("skipped_artifacts.txt", String.intercalate "\n" skippedTests))
  else
    Except.error "NameError: name io is not defined"

/-! ## TestOutputArchiveWriter (ci.py lines 186-444) -/

/-- Configuration of TestOutputArchiveWriter after setup (lines 258-281):
byte limits are the computed int values of lines 272/275, the regexes of
lines 269-270 are abstracted as search predicates (some p when configured,
none when the property was the empty string). -/
structure ArchiveConfig where
  destDir : String
  maxArchiveBytes : Int
  maxTotalBytes : Int
  maxArchives : Int
  fileExcludesRegex : Option (String → Bool)
  fileIncludesRegex : Option (String → Bool)

/-- One regular file produced by the os.walk of a test output directory, in
walk order (runlog-first sort of line 381 already applied): its absolute
path as os.path.join(base, f) returns it, its on-disk size
(os.path.getsize, line 392) and the compressed size the zip deflate
produces for it (getinfo(...).compress_size, lines 415/427). -/
structure FileRec where
  path : String
  size : Nat
  compressedSize : Nat
deriving DecidableEq

/-- The per-archive loop state of _archiveTestOutputDir (lines 369-427):
bytesRemaining, triedTmpZipFile, skippedFiles, filesInZip and the member
names written into the zip so far. trials counts how many times the
trial-compression branch (lines 407-422) actually ran; it is ghost
instrumentation with no influence on the other fields. -/
structure ArchState where
  bytesRemaining : Int
  triedTmpZipFile : Bool
  skippedFiles : List String
  filesInZip : Nat
  members : List String
  trials : Nat
deriving DecidableEq

/-- fn.replace(backslash, slash): path separator normalisation applied before
regex matching (lines 385, 388) and to member names (line 424). -/
def fnNorm (path : String) : String :=
  pyReplace path "\\" "/"

/-- Condition of line 385: fileExcludesRegex is not None and
fileExcludesRegex.search(fn.replace(backslash, slash)). -/
def excludedMatch (cfg : ArchiveConfig) (fn : String) : Bool :=
  match cfg.fileExcludesRegex with
  | some rex => rex fn
  | none => false

/-- Condition of line 388: fileIncludesRegex is not None and not
fileIncludesRegex.search(fn.replace(backslash, slash)). -/
def includeReject (cfg : ArchiveConfig) (fn : String) : Bool :=
  match cfg.fileIncludesRegex with
  | some rex => !rex fn
  | none => false

/-- Member name for a written file (line 424): fn[rootlen:] with separators
normalised, where rootlen = len(outputDir) + 1 (line 376). Python string
slicing is per character, hence List.drop on the character list. -/
def memberName (rootlen : Nat) (path : String) : String :=
  fnNorm ⟨path.data.drop rootlen⟩

/-- Writing one file into the open zip (lines 424-427): record the member,
bump filesInZip, and charge the per-archive budget with the compressed size. -/
def writeFile (rootlen : Nat) (st : ArchState) (f : FileRec) : ArchState :=
  { st with
    members := st.members ++ [memberName rootlen f.path],
    filesInZip := st.filesInZip + 1,
    bytesRemaining := st.bytesRemaining - (f.compressedSize : Int) }

/-- The per-file body of the walk loop of _archiveTestOutputDir
(lines 383-427), one file at a time:
exclude filter, include filter, zero-byte skip, per-archive floor check,
then the over-size handling: if the on-disk size exceeds the remaining
per-archive budget and a trial compression has already happened, skip;
otherwise perform the (single) trial compression - note the source sets
triedTmpZipFile = True at line 407 before the compressed size is inspected,
so the trial happens at most once regardless of its outcome - and skip or
write depending on whether the compressed size fits. -/
def processFile (cfg : ArchiveConfig) (rootlen : Nat) (st : ArchState) (f : FileRec) :
    ArchState :=
  if excludedMatch cfg (fnNorm f.path) then
    { st with skippedFiles := st.skippedFiles ++ [f.path] }
  else if includeReject cfg (fnNorm f.path) then
    { st with skippedFiles := st.skippedFiles ++ [f.path] }
  else if f.size = 0 then
    st
  else if st.bytesRemaining < 500 then
    { st with skippedFiles := st.skippedFiles ++ [f.path] }
  else if (f.size : Int) > st.bytesRemaining then
    if st.triedTmpZipFile then
      { st with skippedFiles := st.skippedFiles ++ [f.path] }
    else if (f.compressedSize : Int) > st.bytesRemaining then
      { st with
        triedTmpZipFile := true,
        trials := st.trials + 1,
        skippedFiles := st.skippedFiles ++ [f.path] }
    else
      writeFile rootlen
        { st with triedTmpZipFile := true, trials := st.trials + 1 } f
  else
    writeFile rootlen st f

/-- Initial loop state (lines 369-374). -/
def initArchState (bytesRemaining : Int) : ArchState :=
  { bytesRemaining := bytesRemaining,
    triedTmpZipFile := false,
    skippedFiles := [],
    filesInZip := 0,
    members := [],
    trials := 0 }

/-- The whole file walk of one archive (lines 378-427). -/
def walkOutputDir (cfg : ArchiveConfig) (rootlen : Nat) (bytesRemaining : Int)
    (files : List FileRec) : ArchState :=
  files.foldl (processFile cfg rootlen) (initArchState bytesRemaining)

/-- Claim-text variant of processFile, for comparison only. Modelled from the
spec sentence: the trial-compression check continues to be attempted for
over-size files until it has failed once, i.e. triedTmpZipFile would be set
only when the trial fails (compressed size still over budget); a successful
trial would leave later trials enabled. The source differs: it sets the flag
before inspecting the trial result. -/
def processFileClaimed (cfg : ArchiveConfig) (rootlen : Nat) (st : ArchState) (f : FileRec) :
    ArchState :=
  if excludedMatch cfg (fnNorm f.path) then
    { st with skippedFiles := st.skippedFiles ++ [f.path] }
  else if includeReject cfg (fnNorm f.path) then
    { st with skippedFiles := st.skippedFiles ++ [f.path] }
  else if f.size = 0 then
    st
  else if st.bytesRemaining < 500 then
    { st with skippedFiles := st.skippedFiles ++ [f.path] }
  else if (f.size : Int) > st.bytesRemaining then
    if st.triedTmpZipFile then
      { st with skippedFiles := st.skippedFiles ++ [f.path] }
    else if (f.compressedSize : Int) > st.bytesRemaining then
      { st with
        triedTmpZipFile := true,
        trials := st.trials + 1,
        skippedFiles := st.skippedFiles ++ [f.path] }
    else
      writeFile rootlen { st with trials := st.trials + 1 } f
  else
    writeFile rootlen st f

/-- Claim-text variant of the walk, built on processFileClaimed. -/
def walkOutputDirClaimed (cfg : ArchiveConfig) (rootlen : Nat) (bytesRemaining : Int)
    (files : List FileRec) : ArchState :=
  files.foldl (processFileClaimed cfg rootlen) (initArchState bytesRemaining)

/-- Claim-text variant of processFile for the filter claim, for comparison
only. Modelled from the spec sentence: the exclude and include regular
expressions are matched against the path of the file relative to the project
root (with separators normalised), rather than against the full walk path the
source passes to search. relOf maps a walk path to that relative path. -/
def processFileRelMatched (cfg : ArchiveConfig) (relOf : String → String) (rootlen : Nat)
    (st : ArchState) (f : FileRec) : ArchState :=
  if excludedMatch cfg (relOf (fnNorm f.path)) then
    { st with skippedFiles := st.skippedFiles ++ [f.path] }
  else if includeReject cfg (relOf (fnNorm f.path)) then
    { st with skippedFiles := st.skippedFiles ++ [f.path] }
  else if f.size = 0 then
    st
  else if st.bytesRemaining < 500 then
    { st with skippedFiles := st.skippedFiles ++ [f.path] }
  else if (f.size : Int) > st.bytesRemaining then
    if st.triedTmpZipFile then
      { st with skippedFiles := st.skippedFiles ++ [f.path] }
    else if (f.compressedSize : Int) > st.bytesRemaining then
      { st with
        triedTmpZipFile := true,
        trials := st.trials + 1,
        skippedFiles := st.skippedFiles ++ [f.path] }
    else
      writeFile rootlen
        { st with triedTmpZipFile := true, trials := st.trials + 1 } f
  else
    writeFile rootlen st f

/-- Claim-text variant of the walk, matching filters against relative paths. -/
def walkOutputDirRelMatched (cfg : ArchiveConfig) (relOf : String → String) (rootlen : Nat)
    (bytesRemaining : Int) (files : List FileRec) : ArchState :=
  files.foldl (processFileRelMatched cfg relOf rootlen) (initArchState bytesRemaining)

/-- Drops the leading projectRoot plus separator from a path: the path of a
file relative to the project root, as the claim words it. -/
def relToRoot (projectRoot : String) (path : String) : String :=
  ⟨path.data.drop (projectRoot.length + 1)⟩

/-- A finished zip that was kept on disk: its path and its member names (the
written files, plus the skipped-files manifest entry when present). -/
structure Archive where
  path : String
  members : List String
deriving DecidableEq

/-- Terminal state of one archive task, per the lifecycle taxonomy: created
(line 358 onwards) and kept, or skipped at one of the three early exits. -/
inductive TaskStatus where
  | archived
  | skippedMaxArchives
  | skippedTotalBudget
  | skippedNoFiles
deriving DecidableEq

/-- Writer-level mutable state across _archiveTestOutputDir calls:
totalBytesRemaining (line 275/439), archivesCreated (lines 281/358/435),
skippedTests (lines 280/351/355) and the archives kept on disk. -/
structure WriterState where
  totalBytesRemaining : Int
  archivesCreated : Int
  skippedTests : List String
  createdArchives : List Archive
deriving DecidableEq

/-- Environment facts the filesystem supplies: the on-disk size
os.path.getsize(zippath) of a finished zip (line 439), as a function of the
zip path and its member names. -/
structure ArchiveEnv where
  zipDiskSize : String → List String → Nat

/-- One queued or immediate archiving job: the id (with cycle suffix when
applicable, line 323) and the walk of its output directory. -/
structure ArchiveTask where
  id : String
  outputDir : String
  files : List FileRec

/-- Name of the in-zip manifest of skipped files (line 430). -/
def skippedManifestName : String := "__pysys_skipped_archive_files.txt"

/-- rootlen of line 376: len(outputDir) + 1. -/
def taskRootlen (task : ArchiveTask) : Nat :=
  task.outputDir.length + 1

/-- The walk of one task (lines 369-427): the per-archive budget starts at
min(maxArchiveSize bytes, current total remaining), line 369. -/
def taskWalk (cfg : ArchiveConfig) (st : WriterState) (task : ArchiveTask) : ArchState :=
  walkOutputDir cfg (taskRootlen task) (min cfg.maxArchiveBytes st.totalBytesRemaining)
    task.files

/-- The zip path of line 337: destDir + sep + id + .zip. -/
def taskZipPath (cfg : ArchiveConfig) (task : ArchiveTask) : String :=
  cfg.destDir ++ "/" ++ task.id ++ ".zip"

/-- The final member list of the zip: the written files plus, per
lines 429-430, the skipped-files manifest when some file was skipped and no
explicit include pattern is configured. -/
def taskMembersFinal (cfg : ArchiveConfig) (st : WriterState) (task : ArchiveTask) :
    List String :=
  if (taskWalk cfg st task).skippedFiles ≠ [] ∧ cfg.fileIncludesRegex.isNone = true then
    (taskWalk cfg st task).members ++ [skippedManifestName]
  else
    (taskWalk cfg st task).members

/-- Translation of TestOutputArchiveWriter._archiveTestOutputDir
(lines 340-444): the maxArchives early exit (350-353), the total-budget
floor exit (354-357), archive creation (line 358 increments archivesCreated)
and the file walk, the in-zip skipped-files manifest (429-430), the
empty-zip deletion, where the just-incremented archivesCreated is
decremented back and the zip removed (432-437), and the final budget charge
and artifact record (439-440). The exception path (442-444) is outside this
total model: no I/O failure source is modelled. -/
def archiveTestOutputDir (cfg : ArchiveConfig) (env : ArchiveEnv) (st : WriterState)
    (task : ArchiveTask) : WriterState × TaskStatus :=
  if st.archivesCreated = cfg.maxArchives then
    ({ st with skippedTests := st.skippedTests ++ [task.outputDir] },
      TaskStatus.skippedMaxArchives)
  else if st.totalBytesRemaining < 500 then
    ({ st with skippedTests := st.skippedTests ++ [task.outputDir] },
      TaskStatus.skippedTotalBudget)
  else if (taskWalk cfg st task).filesInZip = 0 then
    ({ st with archivesCreated := st.archivesCreated + 1 - 1 },
      TaskStatus.skippedNoFiles)
  else
    ({ st with
        archivesCreated := st.archivesCreated + 1,
        totalBytesRemaining :=
          st.totalBytesRemaining -
            (env.zipDiskSize (taskZipPath cfg task) (taskMembersFinal cfg st task) : Int),
        createdArchives :=
          st.createdArchives ++ [⟨taskZipPath cfg task, taskMembersFinal cfg st task⟩] },
      TaskStatus.archived)

/-- Writer state right after setup (lines 275-281). -/
def setupWriterState (cfg : ArchiveConfig) : WriterState :=
  { totalBytesRemaining := cfg.maxTotalBytes,
    archivesCreated := 0,
    skippedTests := [],
    createdArchives := [] }

/-- Processing a sequence of archive tasks in order (the cleanup drain loop of
lines 292-294, or immediate-mode calls). -/
def runTasks (cfg : ArchiveConfig) (env : ArchiveEnv) (st : WriterState)
    (tasks : List ArchiveTask) : WriterState :=
  tasks.foldl (fun s t => (archiveTestOutputDir cfg env s t).1) st

/-! ## End-of-run drain ordering (ci.py lines 292-294, 325-326) -/

/-- One entry of self.queuedInstructions: the list [hash(id), id,
testObj.output] appended at line 326, with the Python hash value already
computed by the environment hash function. -/
structure QueuedInstruction where
  hashVal : Int
  id : String
  output : String
deriving DecidableEq

/-- Appending one instruction at line 326, given the process hash function. -/
def queueInstruction (hash : String → Int) (queued : List QueuedInstruction)
    (id output : String) : List QueuedInstruction :=
  queued ++ [⟨hash id, id, output⟩]

/-- Sort key of an entry: Python compares the three-element lists
lexicographically, hash value first, then id, then output path. -/
def instrKey (t : QueuedInstruction) : Int ×ₗ String ×ₗ String :=
  toLex (t.hashVal, toLex (t.id, t.output))

/-- The comparison sorted() effectively uses on queued entries. -/
def instrLE (a b : QueuedInstruction) : Prop :=
  instrKey a ≤ instrKey b

instance : DecidableRel instrLE :=
  fun a b => inferInstanceAs (Decidable (instrKey a ≤ instrKey b))

/-- The drain order of cleanup (line 293): sorted(self.queuedInstructions).
Python sorted is a stable sort with respect to the lexicographic list
comparison; since the comparison is a total, antisymmetric order on the
(all-field) keys, the sorted permutation is unique and insertionSort with
the same order is extensionally the same function. -/
def cleanupDrainOrder (queued : List QueuedInstruction) : List QueuedInstruction :=
  List.insertionSort instrLE queued

/-! ## GitHubActionsCIWriter (ci.py lines 446-565) -/

/-- Translation of outputGitHubCommand (lines 486-488): the workflow command
line written to stdout. Only the command value gets the percent and newline
escaping; the params portion (when non-empty) only has double colons replaced
by double underscores. -/
def outputGitHubCommand (cmd : String) (value : String)
    (params : List (String × String)) : String :=
  "::" ++ cmd ++
    (if params = [] then ""
     else pyReplace
       (" " ++ String.intercalate "," (params.map (fun kv => kv.1 ++ "=" ++ kv.2)))
       "::" "__") ++
  "::" ++ pyReplace (pyReplace value "%" "%25") "\n" "%0A"

/-- The escaping applied to the command value at line 488:
value.replace percent to percent-25, then newline to percent-0A. -/
def escapeValue (value : String) : String :=
  pyReplace (pyReplace value "%" "%25") "\n" "%0A"

/-- The fixed limit-reached suffix appended at line 561. -/
def annLimitMsg : String :=
  "\n\n(annotation limit reached; for any additional test failures, see the detailed log)"

/-- s contains sub as a contiguous substring. -/
def strContains (s sub : String) : Prop :=
  ∃ pre post : List Char, s.data = pre ++ sub.data ++ post

/-- Per-failure annotation state of GitHubActionsCIWriter: remainingAnnot is
self.remainingAnnotations (line 494), queued is self.failureLogAnnotations,
the queued (command, message, params) triples flushed at cleanup. The field
names shorten the source names. -/
structure AnnState where
  remainingAnnot : Int
  queued : List (String × String × List (String × String))

/-- One processed test result, as GitHubActionsCIWriter.processResult sees it:
whether getOutcome() is in FAILS, the raw runLogOutput, the normalised
file path of the test module (line 562), and the line number the regex
search of line 556 extracted from the output, if any. -/
structure ResultEvent where
  isFail : Bool
  runLogOutput : String
  testFile : String
  lineno : Option String

/-- Translation of the annotation part of GitHubActionsCIWriter.processResult
(lines 553-564), with strip the ANSI-escape stripping function
(stripANSIEscapeCodes, line 38). -/
def ghProcessResult (strip : String → String) (st : AnnState) (r : ResultEvent) :
    AnnState :=
  if st.remainingAnnot > 0 ∧ r.isFail = true then
    let msg : String := strip r.runLogOutput
    let remaining : Int := st.remainingAnnot - 1
    let msg : String := if remaining = 0 then msg ++ annLimitMsg else msg
    let params : List (String × String) :=
      match r.lineno with
      | some l => [("file", r.testFile), ("line", l)]
      | none => [("file", r.testFile)]
    { remainingAnnot := remaining,
      queued := st.queued ++ [("warning", msg, params)] }
  else
    st

/-- Annotation state after setup (lines 494-496): maxAnnot is
self.maxAnnotations, flag the failureLogAnnotations boolean property; two
slots are reserved, and a false flag zeroes the counter. -/
def ghSetupAnnState (maxAnnot : Int) (flag : Bool) : AnnState :=
  { remainingAnnot := if flag then maxAnnot - 2 else 0,
    queued := [] }

/-- The annotation state at the end of a run over the given result events. -/
def ghRun (strip : String → String) (maxAnnot : Int) (flag : Bool)
    (rs : List ResultEvent) : AnnState :=
  rs.foldl (ghProcessResult strip) (ghSetupAnnState maxAnnot flag)

/-! ## Concrete instances used by witnesses and counterexamples -/

/-- Per-kind counters after a run with three FAILED and five PASSED results. -/
def outcomesW : Outcome → Nat :=
  fun o => match o with
  | .failed => 3
  | .passed => 5
  | _ => 0

/-- Summary state after one test ended FAILED (cycle -1 is the
single-cycle default of processResult). -/
def summaryStateW : SummaryState :=
  { outcomes := fun o => match o with | .failed => 1 | _ => 0,
    results := [(-1, .failed, "MyApp_cor_002", "Assertion failed", "/r/MyApp_cor_002/Output/linux")] }

/-! ## C1 -/

/-- C1: refuted by the code. The claim says that with at least one failing
outcome recorded, getSummaryText returns a non-empty string holding the
outcome statistics and the per-failure lines. In the source the function
body never invokes logSummary on its local accumulator, so the returned
string is always empty - here evaluated on a state with one recorded FAILED
outcome. -/
theorem c1_getSummaryText_empty_despite_recorded_failure :
    getSummaryText summaryStateW = "" ∧ 0 < failedNumber summaryStateW.outcomes := by
  exact ⟨rfl, by decide⟩

/-! ## C2 -/

/-- C2: refuted by the code. The claim says skipped_artifacts.txt is
successfully written whenever at least one archive task was skipped. The
source evaluates io.open at line 299, but the module never binds the name
io, so the write raises NameError instead of producing the file. -/
theorem c2_skipped_manifest_write_raises_NameError :
    writeSkippedArtifactsFile ["/r/MyApp_cor_002/Output/linux"] =
      Except.error "NameError: name io is not defined" ∧
    "io" ∉ ciModuleTopLevelNames := by
  exact ⟨rfl, by decide⟩

/-! ## C10 -/

/-- C10: the failure-percentage line is produced only under the guard that
the failing-outcomes string is non-empty, and that guard forces the executed
count (the divisor of the percentage) to be positive. -/
theorem c10_failure_percent_guard_executed_pos (outcomes : Outcome → Nat)
    (l : String × Nat × Nat) (h : outcomeStatsFailureLine outcomes = some l) :
    0 < executedCount outcomes := by
  unfold outcomeStatsFailureLine at h
  split at h
  case isFalse => exact absurd h (by simp)
  case isTrue hg =>
    have hfil : PRECEDENT.filter (fun o => decide (o ∈ FAILS) && decide (0 < outcomes o)) ≠ [] := by
      intro hfil
      apply hg
      unfold failedStr
      rw [hfil]
      rfl
    obtain ⟨o, ho⟩ := List.exists_mem_of_ne_nil _ hfil
    rw [List.mem_filter] at ho
    obtain ⟨hoP, hcond⟩ := ho
    rw [Bool.and_eq_true] at hcond
    have hpos : 0 < outcomes o := of_decide_eq_true hcond.2
    have hle : outcomes o ≤ executedCount outcomes :=
      List.single_le_sum (fun x _ => Nat.zero_le x) _ (List.mem_map_of_mem outcomes hoP)
    omega

/-- Witness for C10 at a concrete run with three FAILED and five PASSED. -/
theorem c10_witness :
    outcomeStatsFailureLine outcomesW = some ("3 FAILED", 3, 8) ∧ 0 < executedCount outcomesW :=
  ⟨by decide, c10_failure_percent_guard_executed_pos outcomesW ("3 FAILED", 3, 8) (by decide)⟩

/-! ## C8 -/

/-- Characters of the output of the newline replacement: a newline never
survives, because matched newlines are replaced by the replacement text and
the kept characters are exactly the non-matching ones. -/
theorem replaceListAux_nl (rep : List Char) (hrep : ¬ '\n' ∈ rep) :
    ∀ (fuel : Nat) (l : List Char), ¬ '\n' ∈ replaceListAux ['\n'] rep fuel l := by
  intro fuel
  induction fuel with
  | zero =>
    intro l
    cases l <;> simp [replaceListAux]
  | succ fuel ih =>
    intro l
    cases l with
    | nil => simp [replaceListAux]
    | cons c rest =>
      simp only [replaceListAux]
      split
      case isTrue h =>
        intro hmem
        rcases List.mem_append.mp hmem with h1 | h1
        · exact hrep h1
        · exact ih _ h1
      case isFalse h =>
        intro hmem
        rcases List.mem_cons.mp hmem with h1 | h1
        · apply h
          refine ⟨by simp, ?_⟩
          rw [← h1]
          simp [List.isPrefixOf]
        · exact ih _ h1

/-- The escaped command value contains no raw newline character. -/
theorem escapeValue_nl (value : String) : ¬ '\n' ∈ (escapeValue value).data := by
  exact replaceListAux_nl ("%0A".data) (by decide) _ _

/-- C8 counterexample: the claim says all emitted text, structured parameter
values included, has every newline replaced by the escape, which entails
that no raw newline remains on the emitted command line. A parameter value
holding a newline reaches stdout unescaped. -/
theorem c8_counterexample_param_newline_unescaped :
    '\n' ∈ (outputGitHubCommand "error" "v" [("file", "a\nb")]).data ∧
    outputGitHubCommand "error" "v" [("file", "a\nb")] = "::error file=a\nb::v" := by
  exact ⟨by decide, by decide⟩

/-- C8 as amended: only the command value is escaped (percent to the percent
escape, then newline to the newline escape), so the value part of the
emitted line contains no raw newline; the params portion only has double
colons replaced by double underscores. -/
theorem c8_amended_value_only_escaping (cmd value : String)
    (params : List (String × String)) :
    outputGitHubCommand cmd value params =
      "::" ++ cmd ++
        (if params = [] then ""
         else pyReplace
           (" " ++ String.intercalate "," (params.map (fun kv => kv.1 ++ "=" ++ kv.2)))
           "::" "__") ++
      "::" ++ escapeValue value ∧
    ¬ '\n' ∈ (escapeValue value).data := by
  exact ⟨rfl, escapeValue_nl value⟩

/-! ## Archive walk lemmas -/

/-- One walk step never writes more files than members. -/
theorem processFile_filesInZip_le (cfg : ArchiveConfig) (rootlen : Nat) (st : ArchState)
    (f : FileRec) (h : st.filesInZip ≤ st.members.length) :
    (processFile cfg rootlen st f).filesInZip ≤ (processFile cfg rootlen st f).members.length := by
  unfold processFile writeFile
  split_ifs <;> simp_all

/-- Along the whole walk, filesInZip is bounded by the member count. -/
theorem walk_filesInZip_le (cfg : ArchiveConfig) (rootlen : Nat) (b : Int)
    (files : List FileRec) :
    (walkOutputDir cfg rootlen b files).filesInZip ≤
      (walkOutputDir cfg rootlen b files).members.length := by
  unfold walkOutputDir
  have hgen : ∀ (fs : List FileRec) (st : ArchState), st.filesInZip ≤ st.members.length →
      (fs.foldl (processFile cfg rootlen) st).filesInZip ≤
        (fs.foldl (processFile cfg rootlen) st).members.length := by
    intro fs
    induction fs with
    | nil => intro st h; exact h
    | cons f fs ih =>
      intro st h
      exact ih _ (processFile_filesInZip_le cfg rootlen st f h)
  exact hgen files (initArchState b) (by simp [initArchState])

/-- One walk step never decreases the per-archive trial flag and, once the
flag is set, performs no further trial compression. -/
theorem processFile_tried (cfg : ArchiveConfig) (rootlen : Nat) (st : ArchState)
    (f : FileRec) (h : st.triedTmpZipFile = true) :
    (processFile cfg rootlen st f).trials = st.trials ∧
    (processFile cfg rootlen st f).triedTmpZipFile = true := by
  unfold processFile writeFile
  split_ifs <;> simp_all

/-- Invariant for the at-most-one-trial property: the trial counter is zero
while the flag is down and never exceeds one. -/
def trialsInv (st : ArchState) : Prop :=
  st.trials ≤ 1 ∧ (st.triedTmpZipFile = false → st.trials = 0)

theorem processFile_trialsInv (cfg : ArchiveConfig) (rootlen : Nat) (st : ArchState)
    (f : FileRec) (h : trialsInv st) : trialsInv (processFile cfg rootlen st f) := by
  obtain ⟨h1, h2⟩ := h
  by_cases ht : st.triedTmpZipFile = true
  · obtain ⟨ha, hb⟩ := processFile_tried cfg rootlen st f ht
    exact ⟨by omega, by intro hc; rw [hb] at hc; exact absurd hc (by simp)⟩
  · have h0 : st.trials = 0 := h2 (by simpa using ht)
    unfold processFile writeFile
    split_ifs <;> constructor <;> simp_all

/-! ## C6 -/

/-- Configuration with no filters and generous limits, as used by the
trial-compression examples. -/
def cfg6 : ArchiveConfig := ⟨"/r/d", 1000000, 1000000, 50, none, none⟩

/-- Two over-size files for the per-archive budget of 1000 bytes: the first
compresses well (trial succeeds and it is written), the second would also
fit compressed but the source skips it without a trial. -/
def files6 : List FileRec :=
  [⟨"/r/T/Output/o/big1.dat", 2000, 300⟩, ⟨"/r/T/Output/o/big2.dat", 800, 200⟩]

/-- C6 counterexample: the claim says a trial whose compressed size fits does
not disable later trials. In the source the flag is set before the trial
outcome is inspected, so after the first (successful) trial the second
over-size file is skipped without a trial, while the claim-text variant
(flag set only on a failed trial) writes it. -/
theorem c6_counterexample_success_trial_disables :
    (walkOutputDir cfg6 14 1000 files6).trials = 1 ∧
    (walkOutputDir cfg6 14 1000 files6).skippedFiles = ["/r/T/Output/o/big2.dat"] ∧
    (walkOutputDir cfg6 14 1000 files6).members = ["big1.dat"] ∧
    (walkOutputDirClaimed cfg6 14 1000 files6).members = ["big1.dat", "big2.dat"] ∧
    (walkOutputDirClaimed cfg6 14 1000 files6).skippedFiles = [] := by
  exact ⟨by decide, by decide, by decide, by decide, by decide⟩

/-- C6 as amended: the trial compression happens at most once per archive;
the first over-size eligible file triggers it regardless of its outcome, and
once the flag is set every further step performs no trial. -/
theorem c6_amended_single_trial :
    (∀ (cfg : ArchiveConfig) (rootlen : Nat) (b : Int) (files : List FileRec),
      (walkOutputDir cfg rootlen b files).trials ≤ 1) ∧
    (∀ (cfg : ArchiveConfig) (rootlen : Nat) (st : ArchState) (f : FileRec),
      st.triedTmpZipFile = true → (processFile cfg rootlen st f).trials = st.trials) := by
  constructor
  · intro cfg rootlen b files
    unfold walkOutputDir
    have hgen : ∀ (fs : List FileRec) (st : ArchState), trialsInv st →
        trialsInv (fs.foldl (processFile cfg rootlen) st) := by
      intro fs
      induction fs with
      | nil => intro st h; exact h
      | cons f fs ih => intro st h; exact ih _ (processFile_trialsInv cfg rootlen st f h)
    exact (hgen files (initArchState b) ⟨by simp [initArchState], fun _ => rfl⟩).1
  · intro cfg rootlen st f h
    exact (processFile_tried cfg rootlen st f h).1

/-- Witness for C6 as amended: a state whose trial flag is already set takes
the no-further-trial branch on a concrete over-size file. -/
theorem c6_witness :
    (⟨700, true, [], 1, ["big1.dat"], 1⟩ : ArchState).triedTmpZipFile = true ∧
    (processFile cfg6 14 ⟨700, true, [], 1, ["big1.dat"], 1⟩
        ⟨"/r/T/Output/o/big2.dat", 800, 200⟩).trials =
      (⟨700, true, [], 1, ["big1.dat"], 1⟩ : ArchState).trials :=
  ⟨rfl, c6_amended_single_trial.2 cfg6 14 ⟨700, true, [], 1, ["big1.dat"], 1⟩
    ⟨"/r/T/Output/o/big2.dat", 800, 200⟩ rfl⟩

/-! ## C9 -/

/-- Abstract matcher standing for the regular expression search of
pattern caret slash: true exactly when the matched string starts with a
forward slash. -/
def startsWithSlash : String → Bool :=
  fun s => match s.data with
  | [] => false
  | c :: _ => c = '/'

/-- Configuration whose exclude filter is the caret-slash matcher. -/
def cfg9 : ArchiveConfig := ⟨"/r/d", 1000000, 1000000, 50, some startsWithSlash, none⟩

/-- C9 counterexample: the claim says the filters are matched against the
path relative to the project root. The source matches against the full walk
path: for the file under project root /PROJ the exclude matcher fires on the
absolute path and the file is skipped, although its path relative to the
project root does not match, and the claim-text variant (matching against
the relative path) archives it. -/
theorem c9_counterexample_absolute_path_matching :
    (walkOutputDir cfg9 18 1000000 [⟨"/PROJ/T1/Output/o/a.log", 10, 5⟩]).skippedFiles =
      ["/PROJ/T1/Output/o/a.log"] ∧
    (walkOutputDir cfg9 18 1000000 [⟨"/PROJ/T1/Output/o/a.log", 10, 5⟩]).filesInZip = 0 ∧
    startsWithSlash (relToRoot "/PROJ" "/PROJ/T1/Output/o/a.log") = false ∧
    (walkOutputDirRelMatched cfg9 (relToRoot "/PROJ") 18 1000000
        [⟨"/PROJ/T1/Output/o/a.log", 10, 5⟩]).filesInZip = 1 ∧
    (walkOutputDirRelMatched cfg9 (relToRoot "/PROJ") 18 1000000
        [⟨"/PROJ/T1/Output/o/a.log", 10, 5⟩]).skippedFiles = [] := by
  exact ⟨by decide, by decide, by decide, by decide, by decide⟩

/-- C9 as amended: each regular file is tested, exclude first and then a
configured include, against its full walk path with separators normalised to
forward slashes (not the path relative to the project root); a file matching
the exclude, or failing a configured include, is recorded in skippedFiles
and not written to the archive. -/
theorem c9_amended_filters_on_walk_path (cfg : ArchiveConfig) (rootlen : Nat)
    (st : ArchState) (f : FileRec) :
    (excludedMatch cfg (fnNorm f.path) = true →
      processFile cfg rootlen st f =
        { st with skippedFiles := st.skippedFiles ++ [f.path] }) ∧
    (excludedMatch cfg (fnNorm f.path) = false →
      includeReject cfg (fnNorm f.path) = true →
      processFile cfg rootlen st f =
        { st with skippedFiles := st.skippedFiles ++ [f.path] }) := by
  constructor
  · intro h
    simp [processFile, h]
  · intro h1 h2
    simp [processFile, h1, h2]

/-- Witness for C9 as amended at the concrete excluded file. -/
theorem c9_witness :
    excludedMatch cfg9 (fnNorm "/PROJ/T1/Output/o/a.log") = true ∧
    processFile cfg9 18 (initArchState 1000000) ⟨"/PROJ/T1/Output/o/a.log", 10, 5⟩ =
      { initArchState 1000000 with skippedFiles := ["/PROJ/T1/Output/o/a.log"] } :=
  ⟨by decide,
    (c9_amended_filters_on_walk_path cfg9 18 (initArchState 1000000)
      ⟨"/PROJ/T1/Output/o/a.log", 10, 5⟩).1 (by decide)⟩

/-! ## C3 -/

/-- One archive step keeps an archive only if it is an old one or its member
list is non-empty. -/
theorem archiveStep_created_sound (cfg : ArchiveConfig) (env : ArchiveEnv)
    (st : WriterState) (task : ArchiveTask) (a : Archive)
    (ha : a ∈ (archiveTestOutputDir cfg env st task).1.createdArchives) :
    a ∈ st.createdArchives ∨ 0 < a.members.length := by
  unfold archiveTestOutputDir at ha
  split_ifs at ha with h1 h2 h3
  · left; simpa using ha
  · left; simpa using ha
  · left; simpa using ha
  · simp only [List.mem_append, List.mem_singleton] at ha
    rcases ha with ha | ha
    · left; exact ha
    · right
      have hw := walk_filesInZip_le cfg (taskRootlen task)
        (min cfg.maxArchiveBytes st.totalBytesRemaining) task.files
      have hmem : 0 < (taskWalk cfg st task).members.length := by
        unfold taskWalk
        unfold taskWalk at h3
        omega
      rw [ha]
      unfold taskMembersFinal
      split
      · simp
      · simpa using hmem

/-- C3: if the walk of a task (past the budget pre-checks) writes zero
files, the task ends skippedNoFiles, the just-created zip is not kept (the
kept-archive list is unchanged) and the archive slot is refunded; and every
archive kept at the end of a run from the post-setup state has a non-empty
member list. -/
theorem c3_empty_archive_deleted_and_kept_archives_nonempty (cfg : ArchiveConfig)
    (env : ArchiveEnv) :
    (∀ (st : WriterState) (task : ArchiveTask),
      st.archivesCreated ≠ cfg.maxArchives →
      ¬ st.totalBytesRemaining < 500 →
      (taskWalk cfg st task).filesInZip = 0 →
      (archiveTestOutputDir cfg env st task).2 = TaskStatus.skippedNoFiles ∧
      (archiveTestOutputDir cfg env st task).1.createdArchives = st.createdArchives ∧
      (archiveTestOutputDir cfg env st task).1.archivesCreated = st.archivesCreated) ∧
    (∀ (tasks : List ArchiveTask) (a : Archive),
      a ∈ (runTasks cfg env (setupWriterState cfg) tasks).createdArchives →
      0 < a.members.length) := by
  constructor
  · intro st task h1 h2 h3
    refine ⟨?_, ?_, ?_⟩ <;> simp [archiveTestOutputDir, h1, h2, h3]
  · intro tasks
    have hgen : ∀ (ts : List ArchiveTask) (st : WriterState),
        (∀ a ∈ st.createdArchives, 0 < a.members.length) →
        (∀ a ∈ (runTasks cfg env st ts).createdArchives, 0 < a.members.length) := by
      intro ts
      induction ts with
      | nil => intro st h; exact h
      | cons t ts ih =>
        intro st h
        refine ih _ ?_
        intro a ha
        rcases archiveStep_created_sound cfg env st t a ha with hold | hpos
        · exact h a hold
        · exact hpos
    intro a ha
    exact hgen tasks (setupWriterState cfg) (by simp [setupWriterState]) a ha

/-- Concrete configuration for the C3 witness: 200 MB per archive, 1 GB
total, 50 archives, no filters. -/
def cfg3 : ArchiveConfig :=
  ⟨"/r/__pysys_output_archives", 209715200, 1073741824, 50, none, none⟩

/-- Environment for the C3 witness. -/
def env3 : ArchiveEnv := ⟨fun _ _ => 100⟩

/-- A task whose only output file has size zero, so the walk writes no file. -/
def task3 : ArchiveTask :=
  ⟨"MyApp_cor_003", "/r/T3/Output/o", [⟨"/r/T3/Output/o/empty.tmp", 0, 0⟩]⟩

/-- Witness for C3 at the concrete zero-file task. -/
theorem c3_witness :
    (setupWriterState cfg3).archivesCreated ≠ cfg3.maxArchives ∧
    ¬ (setupWriterState cfg3).totalBytesRemaining < 500 ∧
    (taskWalk cfg3 (setupWriterState cfg3) task3).filesInZip = 0 ∧
    (archiveTestOutputDir cfg3 env3 (setupWriterState cfg3) task3).2 =
      TaskStatus.skippedNoFiles ∧
    (archiveTestOutputDir cfg3 env3 (setupWriterState cfg3) task3).1.createdArchives = [] :=
  ⟨by decide, by decide, by decide,
    ((c3_empty_archive_deleted_and_kept_archives_nonempty cfg3 env3).1
      (setupWriterState cfg3) task3 (by decide) (by decide) (by decide)).1,
    ((c3_empty_archive_deleted_and_kept_archives_nonempty cfg3 env3).1
      (setupWriterState cfg3) task3 (by decide) (by decide) (by decide)).2.1⟩

/-! ## C4 -/

/-- Configuration for the C4 counterexample: the computed total budget is
500 bytes (the floor check admits exactly this value). -/
def cfg4 : ArchiveConfig := ⟨"/r/__pysys_output_archives", 1000000, 500, 50, none, none⟩

/-- Environment for the C4 counterexample: the finished one-member zip
occupies 562 bytes on disk (450 bytes of deflate payload plus local header,
central directory and end-of-central-directory overhead). -/
def env4 : ArchiveEnv := ⟨fun _ ms => if ms = [] then 0 else 562⟩

/-- A failing test with one 450-byte incompressible log file. -/
def task4 : ArchiveTask :=
  ⟨"MyApp_cor_001", "/r/T1/Output/o", [⟨"/r/T1/Output/o/run.log", 450, 450⟩]⟩

/-- C4 counterexample: the claim says charging the budget with a created
archive final on-disk size never takes it below zero (clamped at zero).
Starting from the post-setup state with 500 bytes of total budget, one
admitted 450-byte file produces a zip whose on-disk size is 562 bytes, and
the charge at line 439 leaves the counter negative: there is no clamp. -/
theorem c4_counterexample_totalBytes_negative :
    (archiveTestOutputDir cfg4 env4 (setupWriterState cfg4) task4).1.totalBytesRemaining < 0 ∧
    (archiveTestOutputDir cfg4 env4 (setupWriterState cfg4) task4).2 = TaskStatus.archived := by
  exact ⟨by decide, by decide⟩

/-- C4 as amended: per archive task and over any whole run, the
total-bytes-remaining counter is monotonically non-increasing (it is not
clamped at zero and can become negative, see the counterexample), and the
archives-remaining count maxArchives - archivesCreated is monotonically
non-increasing and never goes below zero: archivesCreated never decreases
across a task (the empty-archive refund nets out within the task) and never
exceeds maxArchives when it did not already. -/
theorem c4_amended_budget_counters (cfg : ArchiveConfig) (env : ArchiveEnv) :
    (∀ (st : WriterState) (task : ArchiveTask),
      (archiveTestOutputDir cfg env st task).1.totalBytesRemaining ≤ st.totalBytesRemaining ∧
      st.archivesCreated ≤ (archiveTestOutputDir cfg env st task).1.archivesCreated ∧
      (st.archivesCreated ≤ cfg.maxArchives →
        (archiveTestOutputDir cfg env st task).1.archivesCreated ≤ cfg.maxArchives)) ∧
    (∀ (st : WriterState) (tasks : List ArchiveTask),
      (runTasks cfg env st tasks).totalBytesRemaining ≤ st.totalBytesRemaining ∧
      st.archivesCreated ≤ (runTasks cfg env st tasks).archivesCreated ∧
      (st.archivesCreated ≤ cfg.maxArchives →
        (runTasks cfg env st tasks).archivesCreated ≤ cfg.maxArchives)) := by
  have hbytes : ∀ (st : WriterState) (task : ArchiveTask),
      (archiveTestOutputDir cfg env st task).1.totalBytesRemaining ≤ st.totalBytesRemaining := by
    intro st task
    unfold archiveTestOutputDir
    split_ifs <;> simp [Int.sub_le_self]
  have hcount : ∀ (st : WriterState) (task : ArchiveTask),
      st.archivesCreated ≤ (archiveTestOutputDir cfg env st task).1.archivesCreated ∧
      (st.archivesCreated ≤ cfg.maxArchives →
        (archiveTestOutputDir cfg env st task).1.archivesCreated ≤ cfg.maxArchives) := by
    intro st task
    unfold archiveTestOutputDir
    split_ifs with h1 h2 h3
    · exact ⟨le_refl _, fun hle => hle⟩
    · exact ⟨le_refl _, fun hle => hle⟩
    · constructor
      · show st.archivesCreated ≤ st.archivesCreated + 1 - 1
        omega
      · intro hle
        show st.archivesCreated + 1 - 1 ≤ cfg.maxArchives
        omega
    · constructor
      · show st.archivesCreated ≤ st.archivesCreated + 1
        omega
      · intro hle
        show st.archivesCreated + 1 ≤ cfg.maxArchives
        omega
  refine ⟨fun st task => ⟨hbytes st task, hcount st task⟩, ?_⟩
  intro st tasks
  induction tasks generalizing st with
  | nil => exact ⟨le_refl _, le_refl _, fun hle => hle⟩
  | cons t ts ih =>
    obtain ⟨ihb, ihc, ihp⟩ := ih ((archiveTestOutputDir cfg env st t).1)
    refine ⟨?_, ?_, ?_⟩
    · exact le_trans ihb (hbytes st t)
    · exact le_trans (hcount st t).1 ihc
    · intro hle
      exact ihp ((hcount st t).2 hle)

/-- Witness for C4 as amended, at the counterexample run: from the
post-setup state the count hypothesis holds and both counters obey the
amended bounds on the concrete task. -/
theorem c4_witness :
    (setupWriterState cfg4).archivesCreated ≤ cfg4.maxArchives ∧
    (archiveTestOutputDir cfg4 env4 (setupWriterState cfg4) task4).1.totalBytesRemaining ≤
      (setupWriterState cfg4).totalBytesRemaining ∧
    (archiveTestOutputDir cfg4 env4 (setupWriterState cfg4) task4).1.archivesCreated ≤
      cfg4.maxArchives :=
  ⟨by decide,
    ((c4_amended_budget_counters cfg4 env4).1 (setupWriterState cfg4) task4).1,
    ((c4_amended_budget_counters cfg4 env4).1 (setupWriterState cfg4) task4).2.2 (by decide)⟩

/-! ## C5 -/

/-- Invariant maintained along ghProcessResult: the counter plus the queue
length equals its initial value, the counter never goes negative, and when
the counter has just hit zero (with a positive initial value) the most
recently queued message carries the limit-reached suffix. -/
def annInv (init : Int) (st : AnnState) : Prop :=
  st.remainingAnnot + st.queued.length = init ∧
  0 ≤ st.remainingAnnot ∧
  (st.remainingAnnot = 0 → 0 < init →
    ∀ a, st.queued.getLast? = some a → strContains a.2.1 annLimitMsg)

theorem annInv_init (init : Int) (h : 0 ≤ init) :
    annInv init { remainingAnnot := init, queued := [] } := by
  refine ⟨by simp, h, ?_⟩
  intro _ _ a ha
  simp at ha

theorem annInv_step (strip : String → String) (init : Int) (st : AnnState)
    (r : ResultEvent) (h : annInv init st) : annInv init (ghProcessResult strip st r) := by
  obtain ⟨hsum, hpos, hlast⟩ := h
  unfold ghProcessResult
  split_ifs with hc
  · refine ⟨?_, ?_, ?_⟩
    · simp only [List.length_append, List.length_singleton]
      push_cast
      omega
    · simp only
      omega
    · intro hrem0 hinit a ha
      simp only at hrem0
      simp only [List.getLast?_concat, Option.some.injEq] at ha
      rw [← ha]
      simp only [hrem0, if_pos]
      exact ⟨(strip r.runLogOutput).data, [], by simp [String.data_append]⟩
  · exact ⟨hsum, hpos, hlast⟩

theorem annInv_fold (strip : String → String) (init : Int) (rs : List ResultEvent)
    (st : AnnState) (h : annInv init st) :
    annInv init (rs.foldl (ghProcessResult strip) st) := by
  induction rs generalizing st with
  | nil => exact h
  | cons r rs ih => exact ih _ (annInv_step strip init st r h)

/-- C5: over any run the number of queued (and hence emitted) per-failure
log annotation commands is at most maxAnnotations minus the two reserved
slots, and when that bound is attained the final queued message contains
the fixed limit-reached suffix. -/
theorem c5_failure_annot_bound_and_limit_marker (strip : String → String)
    (maxAnnot : Int) (flag : Bool) (rs : List ResultEvent) (hA : 2 ≤ maxAnnot) :
    ((ghRun strip maxAnnot flag rs).queued.length : Int) ≤ maxAnnot - 2 ∧
    (((ghRun strip maxAnnot flag rs).queued.length : Int) = maxAnnot - 2 →
      ∀ a, (ghRun strip maxAnnot flag rs).queued.getLast? = some a →
        strContains a.2.1 annLimitMsg) := by
  set init0 : Int := if flag then maxAnnot - 2 else 0 with hinit0
  have h0 : 0 ≤ init0 := by
    rw [hinit0]; split <;> omega
  have hle : init0 ≤ maxAnnot - 2 := by
    rw [hinit0]; split <;> omega
  have hinv := annInv_fold strip init0 rs
    { remainingAnnot := init0, queued := [] } (annInv_init _ h0)
  have hrun : ghRun strip maxAnnot flag rs =
      rs.foldl (ghProcessResult strip) { remainingAnnot := init0, queued := [] } := rfl
  rw [hrun]
  set final : AnnState :=
    rs.foldl (ghProcessResult strip) { remainingAnnot := init0, queued := [] } with hfinal
  obtain ⟨hsum, hpos, hlast⟩ := hinv
  constructor
  · omega
  · intro hlen a ha
    by_cases hz : init0 = 0
    · exfalso
      have hq : final.queued.length = 0 := by omega
      rw [List.length_eq_zero.mp hq] at ha
      simp at ha
    · have hinitpos : 0 < init0 := by omega
      have hrem0 : final.remainingAnnot = 0 := by omega
      exact hlast hrem0 hinitpos a ha

/-- Concrete results for the C5 witness: three FAILED tests. -/
def rsW : List ResultEvent :=
  List.replicate 3 ⟨true, "ERROR x", "/r/T/run.py", none⟩

/-- Witness for C5 at maxAnnotations 4 (bound 2) and three failures: the
bound holds and the final queued message carries the suffix. -/
theorem c5_witness :
    ((ghRun (fun s => s) 4 true rsW).queued.length : Int) ≤ 4 - 2 ∧
    (∀ a, (ghRun (fun s => s) 4 true rsW).queued.getLast? = some a →
      strContains a.2.1 annLimitMsg) :=
  ⟨(c5_failure_annot_bound_and_limit_marker (fun s => s) 4 true rsW (by decide)).1,
    fun a ha =>
      (c5_failure_annot_bound_and_limit_marker (fun s => s) 4 true rsW (by decide)).2
        (by decide) a ha⟩

/-! ## C7 -/

theorem instrKey_inj {a b : QueuedInstruction} (h : instrKey a = instrKey b) : a = b := by
  cases a
  cases b
  simp only [instrKey, toLex_inj, Prod.mk.injEq] at h
  obtain ⟨h1, h2, h3⟩ := h
  subst h1
  subst h2
  subst h3
  rfl

instance : IsTotal QueuedInstruction instrLE :=
  ⟨fun a b => le_total (instrKey a) (instrKey b)⟩

instance : IsTrans QueuedInstruction instrLE :=
  ⟨fun _ _ _ hab hbc => le_trans hab hbc⟩

instance : IsAntisymm QueuedInstruction instrLE :=
  ⟨fun _ _ h1 h2 => instrKey_inj (le_antisymm h1 h2)⟩

/-- The ordering used by the drain sort is hash-first: comparable entries
have non-decreasing hash values. -/
theorem instrLE_hash {a b : QueuedInstruction} (h : instrLE a b) :
    a.hashVal ≤ b.hashVal := by
  unfold instrLE instrKey at h
  rcases (Prod.Lex.le_iff _ _).mp h with h1 | ⟨h2, _⟩
  · exact le_of_lt h1
  · exact le_of_eq h2

/-- C7: the cleanup drain order is sorted with the hash of the identifier as
the primary key, and it depends only on the multiset of queued entries, not
on their insertion order: any two permutations of the queue drain in the
same order. -/
theorem c7_drain_order_hash_sorted_insertion_invariant :
    (∀ queued : List QueuedInstruction,
      List.Pairwise (fun a b => a.hashVal ≤ b.hashVal) (cleanupDrainOrder queued)) ∧
    (∀ l1 l2 : List QueuedInstruction, l1.Perm l2 →
      cleanupDrainOrder l1 = cleanupDrainOrder l2) := by
  constructor
  · intro queued
    exact (List.sorted_insertionSort instrLE queued).imp (fun h => instrLE_hash h)
  · intro l1 l2 hp
    exact List.eq_of_perm_of_sorted
      ((List.perm_insertionSort instrLE l1).trans
        (hp.trans (List.perm_insertionSort instrLE l2).symm))
      (List.sorted_insertionSort instrLE l1)
      (List.sorted_insertionSort instrLE l2)

/-- Queued entries for the C7 witness, inserted in two different orders. -/
def qT1 : QueuedInstruction := ⟨5, "MyApp_cor_001", "/r/a"⟩

def qT2 : QueuedInstruction := ⟨-3, "MyApp_cor_002", "/r/b"⟩

/-- Witness for C7: the two insertion orders of the same two queued entries
are a permutation of each other and drain identically. -/
theorem c7_witness :
    ([qT1, qT2].Perm [qT2, qT1]) ∧
    cleanupDrainOrder [qT1, qT2] = cleanupDrainOrder [qT2, qT1] :=
  ⟨List.Perm.swap qT2 qT1 [],
    c7_drain_order_hash_sorted_insertion_invariant.2 [qT1, qT2] [qT2, qT1]
      (List.Perm.swap qT2 qT1 [])⟩
